import Mathlib

/-!
Verification of the artichoke-backend class/module registration and value
boundary subsystem (`src/artichoke-backend/src/class.rs`, `module.rs`,
`class_registry.rs`, `value.rs`) against its natural-language specification.

The mruby FFI surface (`sys`) is modelled as an oracle structure `MrbState`
whose fields are the C functions the Rust code calls.  Raw `RClass` and data
pointers are natural numbers with `0` playing the role of the null pointer,
so `NonNull::new` becomes `nonNull`.  Side effects of the definition
machinery (class creation, method binding, VM calls) are captured as an
explicit event trace so that claims of the form "no VM call is made" can be
stated about the trace.

Parts of the repository that the claims depend on but whose sources are not
available (`def.rs`, `method.rs`, the registry internals, `types.rs`) are
modelled from the specification; each such definition carries a doc comment
saying so.
-/

/-- Raw C pointers (to `sys::RClass`, boxed data, ...) are modelled as
natural numbers; `0` is the null pointer. -/
abbrev RawPtr := Nat

/-- Rust `NonNull::new`: wraps a raw pointer, yielding `none` exactly when
the pointer is null. -/
def nonNull (p : RawPtr) : Option RawPtr :=
  if p = 0 then none else some p

/-- Modelled from the spec: the Rust-mapped type tag of an mruby value
(`types::Ruby`, `types.rs` is not among the provided sources).  The spec
only distinguishes the internal-only unreachable marker from ordinary tags,
so a representative set of ordinary tags is kept. -/
inductive Ruby where
  | bool
  | classTag
  | data
  | exception
  | fixnum
  | hash
  | nil
  | object
  | string
  | symbol
  | unreachable
deriving DecidableEq, Repr

/-- An mruby `sys::mrb_value`, modelled by the two observations the code
under verification makes of it: its Rust-mapped type tag
(`types::ruby_from_mrb_value`) and its basic object pointer
(`sys::mrb_sys_basic_ptr`). -/
structure MrbValue where
  ruby_type : Ruby
  basic_ptr : RawPtr
deriving DecidableEq, Repr

/-- Modelled from the spec: a method binding record (`method::Spec`,
`method.rs` is not among the provided sources).  Per the spec a method spec
is a (visibility-kind, name, native function pointer, arity descriptor)
tuple. -/
structure MethodSpec where
  method_type : Nat
  name : String
  method : RawPtr
  args : Nat
deriving DecidableEq, Repr

/-- Method visibility kinds, as numeric codes standing for
method::Type::Instance, method::Type::Class and method::Type::Module. -/
def instanceType : Nat := 0

/-- Numeric code for method::Type::Class (self methods). -/
def classType : Nat := 1

/-- Numeric code for method::Type::Module (module functions). -/
def moduleType : Nat := 2

/-- The oracle model of the mruby VM (`sys::mrb_state` plus the `sys` FFI
functions the verified code calls on it).  Query functions are pure; the
definition functions return the handle the VM would return, with their side
effects captured separately as trace events. -/
structure MrbState where
  object_class : RawPtr
  class_defined : String → Bool
  class_get : String → RawPtr
  class_defined_under : RawPtr → String → Bool
  class_get_under : RawPtr → String → RawPtr
  const_defined_at : RawPtr → Nat → Bool
  module_get : String → RawPtr
  module_get_under : RawPtr → String → RawPtr
  define_class : String → RawPtr → RawPtr
  define_class_under : RawPtr → String → RawPtr → RawPtr
  define_module : String → RawPtr
  define_module_under : RawPtr → String → RawPtr
  method_define_ok : RawPtr → MethodSpec → Bool
  intern_string : String → Nat
  protect_funcall : MrbValue → Nat → List MrbValue → Option MrbValue → Except MrbValue MrbValue
  last_error : MrbValue → Nat
  obj_new : RawPtr → Nat → List MrbValue → MrbValue

mutual

/-- Modelled from the spec: a reference to an enclosing Ruby scope
(`def::EnclosingRubyScope`, `def.rs` is not among the provided sources).
Per the spec an enclosing scope is another class or module Spec; each
variant holds the resolver record of the corresponding family. -/
inductive EnclosingRubyScope : Type where
  | cls (spec : ClassRclass) : EnclosingRubyScope
  | mod (spec : ModuleRclass) : EnclosingRubyScope

/-- The class-family `Rclass` resolver record of `class.rs`: a class name
together with its optional enclosing scope. -/
inductive ClassRclass : Type where
  | mk (name : String) (enclosing_scope : Option EnclosingRubyScope) : ClassRclass

/-- The module-family `Rclass` resolver record of `module.rs`: an interned
symbol for the module name, the name, and the optional enclosing scope. -/
inductive ModuleRclass : Type where
  | mk (sym : Nat) (name : String) (enclosing_scope : Option EnclosingRubyScope) : ModuleRclass

end

mutual

/-- Modelled from the spec: EnclosingRubyScope resolution delegates to the
resolver of the underlying class or module record (spec section 4.1: "first
recursively resolve parent"). -/
def EnclosingRubyScope.rclass (mrb : MrbState) : EnclosingRubyScope → Option RawPtr
  | .cls spec => ClassRclass.resolve mrb spec
  | .mod spec => ModuleRclass.resolve mrb spec

/-- class.rs Rclass::resolve: resolve a class handle from its enclosing
scope and name.  With a scope, first resolve the scope (short-circuiting to
none), then ask mrb_class_defined_under, then fetch with
mrb_class_get_under; at the root, ask mrb_class_defined then fetch with
mrb_class_get.  Fetched pointers pass through NonNull::new. -/
def ClassRclass.resolve (mrb : MrbState) : ClassRclass → Option RawPtr
  | .mk class_name none =>
      if mrb.class_defined class_name then
        nonNull (mrb.class_get class_name)
      else
        none
  | .mk class_name (some scope) =>
      match EnclosingRubyScope.rclass mrb scope with
      | none => none
      | some s =>
          if mrb.class_defined_under s class_name then
            nonNull (mrb.class_get_under s class_name)
          else
            none

/-- module.rs Rclass::resolve: resolve a module handle from its enclosing
scope, interned name symbol and name.  With a scope, first resolve the
scope (short-circuiting to none), then ask mrb_const_defined_at on the
scope object, then fetch with mrb_module_get_under; at the root, ask
mrb_const_defined_at on the object class, then fetch with mrb_module_get. -/
def ModuleRclass.resolve (mrb : MrbState) : ModuleRclass → Option RawPtr
  | .mk sym module_name none =>
      if mrb.const_defined_at mrb.object_class sym then
        nonNull (mrb.module_get module_name)
      else
        none
  | .mk sym module_name (some scope) =>
      match EnclosingRubyScope.rclass mrb scope with
      | none => none
      | some s =>
          if mrb.const_defined_at s sym then
            nonNull (mrb.module_get_under s module_name)
          else
            none

end

/-- A VM query or mutation issued by the verified code, recorded in traces
so that claims about which VM calls are (not) performed can be stated. -/
inductive Event where
  | classDefined (name : String)
  | classGet (name : String)
  | classDefinedUnder (scope : RawPtr) (name : String)
  | classGetUnder (scope : RawPtr) (name : String)
  | constDefinedAt (obj : RawPtr) (sym : Nat)
  | moduleGet (name : String)
  | moduleGetUnder (scope : RawPtr) (name : String)
  | defineClass (name : String) (super_class : RawPtr)
  | defineClassUnder (scope : RawPtr) (name : String) (super_class : RawPtr)
  | defineModule (name : String)
  | defineModuleUnder (scope : RawPtr) (name : String)
  | defineMethod (rclass : RawPtr) (m : MethodSpec)
  | setInstanceTT (rclass : RawPtr)
  | vmFuncall (recv : MrbValue) (sym : Nat) (args : List MrbValue)
  | vmObjNew (rclass : RawPtr) (argc : Nat) (args : List MrbValue)
deriving DecidableEq, Repr

mutual

/-- Instrumented variant of EnclosingRubyScope.rclass that also returns the
list of VM queries issued, in order. -/
def EnclosingRubyScope.rclassT (mrb : MrbState) :
    EnclosingRubyScope → Option RawPtr × List Event
  | .cls spec => ClassRclass.resolveT mrb spec
  | .mod spec => ModuleRclass.resolveT mrb spec

/-- Instrumented variant of the class-family Rclass::resolve: identical
control flow, additionally returning the VM queries issued, in order. -/
def ClassRclass.resolveT (mrb : MrbState) : ClassRclass → Option RawPtr × List Event
  | .mk class_name none =>
      if mrb.class_defined class_name then
        (nonNull (mrb.class_get class_name),
          [Event.classDefined class_name, Event.classGet class_name])
      else
        (none, [Event.classDefined class_name])
  | .mk class_name (some scope) =>
      match EnclosingRubyScope.rclassT mrb scope with
      | (none, qs) => (none, qs)
      | (some s, qs) =>
          if mrb.class_defined_under s class_name then
            (nonNull (mrb.class_get_under s class_name),
              qs ++ [Event.classDefinedUnder s class_name, Event.classGetUnder s class_name])
          else
            (none, qs ++ [Event.classDefinedUnder s class_name])

/-- Instrumented variant of the module-family Rclass::resolve: identical
control flow, additionally returning the VM queries issued, in order. -/
def ModuleRclass.resolveT (mrb : MrbState) : ModuleRclass → Option RawPtr × List Event
  | .mk sym module_name none =>
      if mrb.const_defined_at mrb.object_class sym then
        (nonNull (mrb.module_get module_name),
          [Event.constDefinedAt mrb.object_class sym, Event.moduleGet module_name])
      else
        (none, [Event.constDefinedAt mrb.object_class sym])
  | .mk sym module_name (some scope) =>
      match EnclosingRubyScope.rclassT mrb scope with
      | (none, qs) => (none, qs)
      | (some s, qs) =>
          if mrb.const_defined_at s sym then
            (nonNull (mrb.module_get_under s module_name),
              qs ++ [Event.constDefinedAt s sym, Event.moduleGetUnder s module_name])
          else
            (none, qs ++ [Event.constDefinedAt s sym])

end

mutual

/-- The instrumented scope resolver computes the same handle as the plain
one. -/
theorem EnclosingRubyScope.rclassT_fst (mrb : MrbState) :
    ∀ s : EnclosingRubyScope, (EnclosingRubyScope.rclassT mrb s).1 = EnclosingRubyScope.rclass mrb s
  | .cls spec => by
      rw [EnclosingRubyScope.rclassT, EnclosingRubyScope.rclass]
      exact classResolveT_fst mrb spec
  | .mod spec => by
      rw [EnclosingRubyScope.rclassT, EnclosingRubyScope.rclass]
      exact moduleResolveT_fst mrb spec

/-- The instrumented class resolver computes the same handle as the plain
one. -/
theorem classResolveT_fst (mrb : MrbState) :
    ∀ c : ClassRclass, (ClassRclass.resolveT mrb c).1 = ClassRclass.resolve mrb c
  | .mk class_name none => by
      rw [ClassRclass.resolveT, ClassRclass.resolve]
      split <;> simp
  | .mk class_name (some scope) => by
      rw [ClassRclass.resolveT, ClassRclass.resolve]
      rw [← EnclosingRubyScope.rclassT_fst mrb scope]
      rcases h : EnclosingRubyScope.rclassT mrb scope with ⟨r, qs⟩
      rcases r with _ | s
      · simp
      · simp only
        split <;> simp

/-- The instrumented module resolver computes the same handle as the plain
one. -/
theorem moduleResolveT_fst (mrb : MrbState) :
    ∀ m : ModuleRclass, (ModuleRclass.resolveT mrb m).1 = ModuleRclass.resolve mrb m
  | .mk sym module_name none => by
      rw [ModuleRclass.resolveT, ModuleRclass.resolve]
      split <;> simp
  | .mk sym module_name (some scope) => by
      rw [ModuleRclass.resolveT, ModuleRclass.resolve]
      rw [← EnclosingRubyScope.rclassT_fst mrb scope]
      rcases h : EnclosingRubyScope.rclassT mrb scope with ⟨r, qs⟩
      rcases r with _ | s
      · simp
      · simp only
        split <;> simp

end

/-- Recursive fully-qualified name of an enclosing scope: per the spec,
derived as the enclosing scope's qualified name, "::", then the name when
nested, else the bare name. -/
def EnclosingRubyScope.fqname : EnclosingRubyScope → String
  | .cls (.mk name none) => name
  | .cls (.mk name (some scope)) => EnclosingRubyScope.fqname scope ++ "::" ++ name
  | .mod (.mk _ name none) => name
  | .mod (.mk _ name (some scope)) => EnclosingRubyScope.fqname scope ++ "::" ++ name

/-- A proposed class, module or method name cannot be represented in the
VM's required name encoding (it contains an embedded NUL byte, so that
CString::new fails). -/
structure ConstantNameError where
  name : String
deriving DecidableEq, Repr

/-- Modelled from the spec: a named VM entity (class, module, enclosing
scope, superclass, method) was expected to exist or be definable but is not
(def::NotDefinedError, def.rs is not among the provided sources; the
variants are the constructors used by class.rs and module.rs). -/
inductive NotDefinedError where
  | enclosingScope (fqname : String)
  | superClass (name : String)
  | classNotDefined (name : String)
  | moduleNotDefined (name : String)
  | methodNotDefined (name : String)
deriving DecidableEq, Repr

/-- The sys::mrb_data_type record owned by a class Spec: the struct name
used as a runtime type tag and the optional native free function pointer. -/
structure MrbDataType where
  struct_name : String
  dfree : Option RawPtr
deriving DecidableEq, Repr

/-- True when a name contains an embedded NUL byte, i.e. exactly when Rust
CString::new would reject it. -/
def hasInteriorNul (name : String) : Bool :=
  name.toList.any (fun c => c = Char.ofNat 0)

/-- class.rs Spec: immutable descriptor of a to-be-defined (or already
defined) VM class.  The source stores the name twice (as a str and as the
validated CString with identical contents); the model keeps it once. -/
structure Class.Spec where
  name : String
  data_type : MrbDataType
  enclosing_scope : Option EnclosingRubyScope

/-- class.rs Spec::new: validate the name and build the Spec, recording the
optional native free function in the mrb_data_type. -/
def Class.Spec.new (name : String) (enclosing_scope : Option EnclosingRubyScope)
    (free : Option RawPtr) : Except ConstantNameError Class.Spec :=
  if hasInteriorNul name then
    Except.error { name := name }
  else
    Except.ok
      { name := name
        data_type := { struct_name := name, dfree := free }
        enclosing_scope := enclosing_scope }

/-- class.rs Spec::fqname: enclosing scope's fqname, "::", then the name
when nested, else the bare name. -/
def Class.Spec.fqname (s : Class.Spec) : String :=
  match s.enclosing_scope with
  | some scope => scope.fqname ++ "::" ++ s.name
  | none => s.name

/-- class.rs Spec::rclass: derive the resolver record from name and
enclosing scope. -/
def Class.Spec.rclass (s : Class.Spec) : ClassRclass :=
  ClassRclass.mk s.name s.enclosing_scope

/-- class.rs PartialEq for Spec: equality compares fully-qualified names
only. -/
def Class.Spec.eq (a b : Class.Spec) : Bool :=
  a.fqname == b.fqname

/-- module.rs Spec: immutable descriptor of a to-be-defined (or already
defined) VM module; carries the interned name symbol. -/
structure Module.Spec where
  name : String
  sym : Nat
  enclosing_scope : Option EnclosingRubyScope

/-- module.rs Spec::new: validate the name, intern it, and build the Spec.
Interning is modelled as the total oracle MrbState.intern_string. -/
def Module.Spec.new (mrb : MrbState) (name : String)
    (enclosing_scope : Option EnclosingRubyScope) : Except ConstantNameError Module.Spec :=
  if hasInteriorNul name then
    Except.error { name := name }
  else
    Except.ok
      { name := name
        sym := mrb.intern_string name
        enclosing_scope := enclosing_scope }

/-- module.rs Spec::fqname: enclosing scope's fqname, "::", then the name
when nested, else the bare name. -/
def Module.Spec.fqname (s : Module.Spec) : String :=
  match s.enclosing_scope with
  | some scope => scope.fqname ++ "::" ++ s.name
  | none => s.name

/-- module.rs Spec::rclass: derive the resolver record from the symbol,
name and enclosing scope. -/
def Module.Spec.rclass (s : Module.Spec) : ModuleRclass :=
  ModuleRclass.mk s.sym s.name s.enclosing_scope

/-- module.rs PartialEq for Spec: equality compares fully-qualified names
only. -/
def Module.Spec.eq (a b : Module.Spec) : Bool :=
  a.fqname == b.fqname

/-- Modelled from the spec: EnclosingRubyScope::class wraps a class Spec's
resolver record as a scope (def.rs is not among the provided sources). -/
def EnclosingRubyScope.ofClass (spec : Class.Spec) : EnclosingRubyScope :=
  EnclosingRubyScope.cls spec.rclass

/-- Modelled from the spec: EnclosingRubyScope::module wraps a module
Spec's resolver record as a scope (def.rs is not among the provided
sources). -/
def EnclosingRubyScope.ofModule (spec : Module.Spec) : EnclosingRubyScope :=
  EnclosingRubyScope.mod spec.rclass

/-- Modelled from the spec: method::Spec::new validates the method name
(method.rs is not among the provided sources; per the spec it fails if the
name cannot be represented in the VM's required encoding). -/
def MethodSpec.new (method_type : Nat) (name : String) (method : RawPtr) (args : Nat) :
    Except ConstantNameError MethodSpec :=
  if hasInteriorNul name then
    Except.error { name := name }
  else
    Except.ok { method_type := method_type, name := name, method := method, args := args }

/-- Modelled from the spec: the equality used by the builders' method sets,
keyed by (visibility kind, name) only (method.rs is not among the provided
sources; per the spec method sets are "deduplicated by (kind, name)"). -/
def MethodSpec.keyEq (a b : MethodSpec) : Bool :=
  a.method_type == b.method_type && a.name == b.name

/-- Rust HashSet::insert on the builders' method sets: if a key-equal
element is already present the set is not modified and the original element
is retained; otherwise the new element is added. -/
def hashSetInsert (s : List MethodSpec) (m : MethodSpec) : List MethodSpec :=
  if s.any (fun x => MethodSpec.keyEq x m) then s else s ++ [m]

/-- class.rs Builder: staged construction of a VM class definition. -/
structure Class.Builder where
  spec : Class.Spec
  is_mrb_tt_data : Bool
  super_class : Option RawPtr
  methods : List MethodSpec

/-- class.rs Builder::for_spec: fresh builder with no methods, no explicit
superclass, and no foreign-data marking. -/
def Class.Builder.for_spec (spec : Class.Spec) : Class.Builder :=
  { spec := spec, is_mrb_tt_data := false, super_class := none, methods := [] }

/-- class.rs Builder::value_is_rust_object: mark instances as holding a
pointer to a Rust object (MRB_TT_DATA). -/
def Class.Builder.value_is_rust_object (b : Class.Builder) : Class.Builder :=
  { b with is_mrb_tt_data := true }

/-- class.rs Builder::add_method: validate and insert an instance-method
spec into the accumulated method set. -/
def Class.Builder.add_method (b : Class.Builder) (name : String) (method : RawPtr)
    (args : Nat) : Except ConstantNameError Class.Builder :=
  match MethodSpec.new instanceType name method args with
  | Except.error e => Except.error e
  | Except.ok spec => Except.ok { b with methods := hashSetInsert b.methods spec }

/-- class.rs Builder::add_self_method: validate and insert a self-method
spec into the accumulated method set. -/
def Class.Builder.add_self_method (b : Class.Builder) (name : String) (method : RawPtr)
    (args : Nat) : Except ConstantNameError Class.Builder :=
  match MethodSpec.new classType name method args with
  | Except.error e => Except.error e
  | Except.ok spec => Except.ok { b with methods := hashSetInsert b.methods spec }

/-- The method-binding loop shared by class.rs and module.rs define: bind
each accumulated method onto the resolved class handle in order,
propagating the first failure.  Binding success is the
MrbState.method_define_ok oracle (method.rs is not among the provided
sources; per the spec each binding can itself fail, propagated). -/
def bindMethods (mrb : MrbState) (rclass : RawPtr) :
    List MethodSpec → Except NotDefinedError Unit × List Event
  | [] => (Except.ok (), [])
  | m :: rest =>
      if mrb.method_define_ok rclass m then
        match bindMethods mrb rclass rest with
        | (r, evs) => (r, Event.defineMethod rclass m :: evs)
      else
        (Except.error (NotDefinedError.methodNotDefined m.name), [Event.defineMethod rclass m])

/-- The tail of class.rs Builder::define once the target class handle is
known: bind the accumulated methods, then, on success, set the MRB_TT_DATA
instance tag when the builder was marked foreign-backed. -/
def Class.Builder.finish (mrb : MrbState) (b : Class.Builder) (rclass : RawPtr) :
    Except NotDefinedError Unit × List Event :=
  match bindMethods mrb rclass b.methods with
  | (Except.ok _, evs) =>
      if b.is_mrb_tt_data then (Except.ok (), evs ++ [Event.setInstanceTT rclass])
      else (Except.ok (), evs)
  | (Except.error e, evs) => (Except.error e, evs)

/-- class.rs Builder::define.  Chooses the superclass (explicit, else the
VM's Object class through NonNull::new); resolves the Spec's handle and
reuses it if found; otherwise defines the class under its resolved
enclosing scope or at the root, failing with NotDefinedError when the
enclosing scope does not resolve or the VM returns a null class; finally
binds the accumulated methods and applies the MRB_TT_DATA marking.  The
trace records the VM mutations issued (class creation, method binding,
instance-type tagging); pure resolution queries are traced by the
instrumented resolvers instead. -/
def Class.Builder.define (mrb : MrbState) (b : Class.Builder) :
    Except NotDefinedError Unit × List Event :=
  let name := b.spec.name
  match (match b.super_class with
         | some sc => some sc
         | none => nonNull mrb.object_class) with
  | none => (Except.error (NotDefinedError.superClass "Object"), [])
  | some super_class =>
    match ClassRclass.resolve mrb b.spec.rclass with
    | some rclass => Class.Builder.finish mrb b rclass
    | none =>
      match b.spec.enclosing_scope with
      | some enclosing_scope =>
        match EnclosingRubyScope.rclass mrb enclosing_scope with
        | some scope =>
            match nonNull (mrb.define_class_under scope name super_class) with
            | none =>
                (Except.error (NotDefinedError.classNotDefined name),
                  [Event.defineClassUnder scope name super_class])
            | some rclass =>
                match Class.Builder.finish mrb b rclass with
                | (r, evs) => (r, Event.defineClassUnder scope name super_class :: evs)
        | none =>
            (Except.error (NotDefinedError.enclosingScope enclosing_scope.fqname), [])
      | none =>
          match nonNull (mrb.define_class name super_class) with
          | none =>
              (Except.error (NotDefinedError.classNotDefined name),
                [Event.defineClass name super_class])
          | some rclass =>
              match Class.Builder.finish mrb b rclass with
              | (r, evs) => (r, Event.defineClass name super_class :: evs)

/-- module.rs Builder: staged construction of a VM module definition. -/
structure Module.Builder where
  spec : Module.Spec
  methods : List MethodSpec

/-- module.rs Builder::for_spec: fresh builder with no methods. -/
def Module.Builder.for_spec (spec : Module.Spec) : Module.Builder :=
  { spec := spec, methods := [] }

/-- module.rs Builder::add_method: validate and insert an instance-method
spec into the accumulated method set. -/
def Module.Builder.add_method (b : Module.Builder) (name : String) (method : RawPtr)
    (args : Nat) : Except ConstantNameError Module.Builder :=
  match MethodSpec.new instanceType name method args with
  | Except.error e => Except.error e
  | Except.ok spec => Except.ok { b with methods := hashSetInsert b.methods spec }

/-- module.rs Builder::add_self_method: validate and insert a self-method
spec into the accumulated method set. -/
def Module.Builder.add_self_method (b : Module.Builder) (name : String) (method : RawPtr)
    (args : Nat) : Except ConstantNameError Module.Builder :=
  match MethodSpec.new classType name method args with
  | Except.error e => Except.error e
  | Except.ok spec => Except.ok { b with methods := hashSetInsert b.methods spec }

/-- module.rs Builder::add_module_method: validate and insert a
module-method spec into the accumulated method set. -/
def Module.Builder.add_module_method (b : Module.Builder) (name : String) (method : RawPtr)
    (args : Nat) : Except ConstantNameError Module.Builder :=
  match MethodSpec.new moduleType name method args with
  | Except.error e => Except.error e
  | Except.ok spec => Except.ok { b with methods := hashSetInsert b.methods spec }

/-- module.rs Builder::define.  Resolves the Spec's handle and reuses it if
found; otherwise defines the module under its resolved enclosing scope or
at the root, failing with NotDefinedError when the enclosing scope does not
resolve or the VM returns a null module; finally binds the accumulated
methods. -/
def Module.Builder.define (mrb : MrbState) (b : Module.Builder) :
    Except NotDefinedError Unit × List Event :=
  let name := b.spec.name
  match ModuleRclass.resolve mrb b.spec.rclass with
  | some rclass => bindMethods mrb rclass b.methods
  | none =>
    match b.spec.enclosing_scope with
    | some enclosing_scope =>
      match EnclosingRubyScope.rclass mrb enclosing_scope with
      | some scope =>
          match nonNull (mrb.define_module_under scope name) with
          | none =>
              (Except.error (NotDefinedError.moduleNotDefined name),
                [Event.defineModuleUnder scope name])
          | some rclass =>
              match bindMethods mrb rclass b.methods with
              | (r, evs) => (r, Event.defineModuleUnder scope name :: evs)
      | none =>
          (Except.error (NotDefinedError.enclosingScope enclosing_scope.fqname), [])
    | none =>
        match nonNull (mrb.define_module name) with
        | none =>
            (Except.error (NotDefinedError.moduleNotDefined name),
              [Event.defineModule name])
        | some rclass =>
            match bindMethods mrb rclass b.methods with
            | (r, evs) => (r, Event.defineModule name :: evs)

/-- value.rs MRB_FUNCALL_ARGC_MAX: max argument count for function calls
including initialize and yield. -/
def MRB_FUNCALL_ARGC_MAX : Nat := 16

/-- value.rs Value: boxed Ruby value in the interpreter, wrapping a
sys::mrb_value. -/
structure Value where
  inner : MrbValue
deriving DecidableEq, Repr

/-- value.rs Value::ruby_type via types::ruby_from_mrb_value, modelled as
reading the value's type tag. -/
def Value.ruby_type (v : Value) : Ruby :=
  v.inner.ruby_type

/-- value.rs Value::is_unreachable: whether the value carries the
interpreter-internal unreachable type tag. -/
def Value.is_unreachable (v : Value) : Bool :=
  match v.ruby_type with
  | Ruby.unreachable => true
  | _ => false

/-- value.rs PartialEq for Value: two values are equal exactly when
sys::mrb_sys_basic_ptr returns the same pointer for both. -/
def Value.eq (a b : Value) : Bool :=
  a.inner.basic_ptr == b.inner.basic_ptr

/-- value.rs ArgCountError: argument count exceeds the maximum allowed by
the VM, carrying the given count and the maximum. -/
structure ArgCountError where
  given : Nat
  max : Nat
deriving DecidableEq, Repr

/-- value.rs TryFrom a slice of Values for ArgCountError: produces the
error exactly when the slice is longer than MRB_FUNCALL_ARGC_MAX. -/
def ArgCountError.tryFrom (args : List Value) : Except Unit ArgCountError :=
  if args.length > MRB_FUNCALL_ARGC_MAX then
    Except.ok { given := args.length, max := MRB_FUNCALL_ARGC_MAX }
  else
    Except.error ()

/-- The native error taxonomy surfaced by the value boundary and the
registry (the Exception sum of exception.rs, reduced to the variants the
verified code constructs; a VM-raised exception captured by
exception_handler::last_error is represented by the oracle's numeric
error id). -/
inductive Exception where
  | argCount (e : ArgCountError)
  | fatal (message : String)
  | notDefined (e : NotDefinedError)
  | constantName (e : ConstantNameError)
  | interpreterExtract
  | vmRaised (errorId : Nat)
deriving DecidableEq, Repr

/-- value.rs Value::funcall.  First checks the argument count against
MRB_FUNCALL_ARGC_MAX and fails with an ArgCountError before any VM call;
then interns the method name and issues the protected VM call
(protect::funcall); a successful result carrying the unreachable type tag
becomes a fatal internal error; a VM-raised exception is converted through
exception_handler::last_error.  The trace records the protected VM call. -/
def Value.funcall (mrb : MrbState) (self : Value) (func : String) (args : List Value)
    (block : Option Value) : Except Exception Value × List Event :=
  match ArgCountError.tryFrom args with
  | Except.ok arg_count_error => (Except.error (Exception.argCount arg_count_error), [])
  | Except.error _ =>
      let argvals := args.map Value.inner
      let sym := mrb.intern_string func
      match mrb.protect_funcall self.inner sym argvals (block.map Value.inner) with
      | Except.ok value =>
          let value := Value.mk value
          if value.is_unreachable then
            (Except.error (Exception.fatal "Unreachable Ruby value"),
              [Event.vmFuncall self.inner sym argvals])
          else
            (Except.ok value, [Event.vmFuncall self.inner sym argvals])
      | Except.error exc =>
          (Except.error (Exception.vmRaised (mrb.last_error exc)),
            [Event.vmFuncall self.inner sym argvals])

/-- Modelled from the spec: insertion into the type registry backing the
state's class table (the registry internals are not among the provided
sources).  Per the spec the registry is keyed by host type identity and
insertion overwrites silently, last writer wins; host type identities are
modelled as numbers. -/
def Registry.insert (r : List (Nat × Class.Spec)) (tid : Nat) (spec : Class.Spec) :
    List (Nat × Class.Spec) :=
  (tid, spec) :: r.filter (fun p => p.1 != tid)

/-- Modelled from the spec: lookup in the type registry backing the state's
class table, returning the registration record for a host type identity if
one is present. -/
def Registry.get (r : List (Nat × Class.Spec)) (tid : Nat) : Option Class.Spec :=
  match r.find? (fun p => p.1 == tid) with
  | some p => some p.2
  | none => none

/-- The part of the interpreter State the verified operations touch: the
class registry. -/
structure State where
  classes : List (Nat × Class.Spec)

/-- The Artichoke interpreter as seen by the verified operations: the
optional State (absent when the state was taken for an FFI call) and the
mruby VM oracle. -/
structure Artichoke where
  state : Option State
  mrb : MrbState

/-- class_registry.rs ClassRegistry::def_class for Artichoke: register a
class Spec for a host type, overwriting any previous registration; fails
only when the interpreter State is unavailable. -/
def Artichoke.def_class (interp : Artichoke) (tid : Nat) (spec : Class.Spec) :
    Except Exception Artichoke :=
  match interp.state with
  | none => Except.error Exception.interpreterExtract
  | some st =>
      Except.ok { interp with state := some { st with classes := Registry.insert st.classes tid spec } }

/-- class_registry.rs ClassRegistry::class_spec for Artichoke: look up the
registered class Spec for a host type. -/
def Artichoke.class_spec (interp : Artichoke) (tid : Nat) : Except Exception (Option Class.Spec) :=
  match interp.state with
  | none => Except.error Exception.interpreterExtract
  | some st => Except.ok (Registry.get st.classes tid)

/-- class_registry.rs ClassRegistry::is_class_defined for Artichoke: true
exactly when class_spec yields Ok(Some(..)). -/
def Artichoke.is_class_defined (interp : Artichoke) (tid : Nat) : Bool :=
  match interp.class_spec tid with
  | Except.ok (some _) => true
  | _ => false

/-- The mruby integer width bound: Int is i64, so a usize argument count
converts exactly when it is at most 2 ^ 63 - 1. -/
def INT_MAX : Nat := 2 ^ 63 - 1

/-- class_registry.rs ClassRegistry::new_instance for Artichoke: construct
a new VM instance of the host type's class.  Yields Ok(None) when the type
has no registered Spec, when the argument count does not fit the VM's
integer width, or when the Spec's handle does not resolve; otherwise calls
mrb_obj_new on the resolved class with the marshalled arguments. -/
def Artichoke.new_instance (interp : Artichoke) (tid : Nat) (args : List Value) :
    Except Exception (Option Value) :=
  match interp.state with
  | none => Except.error Exception.interpreterExtract
  | some st =>
    match Registry.get st.classes tid with
    | none => Except.ok none
    | some spec =>
        let argvals := args.map Value.inner
        if args.length > INT_MAX then Except.ok none
        else
          match ClassRclass.resolve interp.mrb spec.rclass with
          | some rclass =>
              Except.ok (some (Value.mk (interp.mrb.obj_new rclass args.length argvals)))
          | none => Except.ok none

/-- A concrete VM oracle in which no class or module is defined anywhere
and every fetched pointer is null; used to exercise the negative branches
of the verified operations. -/
def oracleUndef : MrbState :=
  { object_class := 1
    class_defined := fun _ => false
    class_get := fun _ => 0
    class_defined_under := fun _ _ => false
    class_get_under := fun _ _ => 0
    const_defined_at := fun _ _ => false
    module_get := fun _ => 0
    module_get_under := fun _ _ => 0
    define_class := fun _ _ => 9
    define_class_under := fun _ _ _ => 9
    define_module := fun _ => 9
    define_module_under := fun _ _ => 9
    method_define_ok := fun _ _ => true
    intern_string := fun _ => 5
    protect_funcall := fun _ _ _ _ => Except.ok { ruby_type := Ruby.nil, basic_ptr := 0 }
    last_error := fun _ => 11
    obj_new := fun _ _ _ => { ruby_type := Ruby.object, basic_ptr := 7 } }

/-- A concrete VM oracle in which every name is defined: root fetches
return pointer 3 and nested fetches pointer 4. -/
def oracleDef : MrbState :=
  { oracleUndef with
    class_defined := fun _ => true
    class_get := fun _ => 3
    class_defined_under := fun _ _ => true
    class_get_under := fun _ _ => 4
    const_defined_at := fun _ _ => true
    module_get := fun _ => 3
    module_get_under := fun _ _ => 4 }

/-- A concrete VM oracle whose protected call returns a value carrying the
interpreter-internal unreachable type tag. -/
def oracleUnreach : MrbState :=
  { oracleDef with
    protect_funcall := fun _ _ _ _ =>
      Except.ok { ruby_type := Ruby.unreachable, basic_ptr := 0 } }

/-- A concrete enclosing scope naming a root class Baz. -/
def scopeBaz : EnclosingRubyScope :=
  EnclosingRubyScope.cls (ClassRclass.mk "Baz" none)

/-- A concrete class Spec for a root class Foo with no free function. -/
def fooSpec : Class.Spec :=
  { name := "Foo", data_type := { struct_name := "Foo", dfree := none }, enclosing_scope := none }

/-- A concrete class Spec for a class Bar nested under the scope Baz. -/
def barSpec : Class.Spec :=
  { name := "Bar", data_type := { struct_name := "Bar", dfree := none },
    enclosing_scope := some scopeBaz }

/-- A concrete module Spec for a module Bar nested under the scope Baz. -/
def barModSpec : Module.Spec :=
  { name := "Bar", sym := 5, enclosing_scope := some scopeBaz }

/-- A concrete instance-method spec named bar with function pointer 1. -/
def m7a : MethodSpec :=
  { method_type := instanceType, name := "bar", method := 1, args := 0 }

/-- A concrete instance-method spec named bar with function pointer 2,
key-equal to m7a but carrying a different function pointer. -/
def m7b : MethodSpec :=
  { method_type := instanceType, name := "bar", method := 2, args := 0 }

/-- A concrete builder for the root class Foo, marked foreign-backed and
holding one accumulated method. -/
def builderFoo : Class.Builder :=
  { spec := fooSpec, is_mrb_tt_data := true, super_class := none, methods := [m7a] }

/-- A concrete ordinary (string-tagged) Value with basic pointer 2. -/
def sampleVal : Value :=
  { inner := { ruby_type := Ruby.string, basic_ptr := 2 } }

/-- A resolved handle produced through NonNull::new is never the null
pointer. -/
theorem nonNull_eq_some {q p : RawPtr} (h : nonNull q = some p) : p ≠ 0 := by
  unfold nonNull at h
  split at h
  · exact absurd h (by simp)
  · rename_i hq
    obtain rfl : q = p := by simpa using h
    exact hq

/-- NonNull::new on a non-null pointer returns it unchanged. -/
theorem nonNull_of_ne {q : RawPtr} (h : q ≠ 0) : nonNull q = some q := by
  unfold nonNull
  simp [h]

/-- When every accumulated binding succeeds, the method-binding loop
succeeds and its trace is exactly one binding event per accumulated method,
in order, all onto the same handle. -/
theorem bindMethods_all_ok (mrb : MrbState) (rclass : RawPtr) (ms : List MethodSpec)
    (h : ∀ m ∈ ms, mrb.method_define_ok rclass m = true) :
    bindMethods mrb rclass ms = (Except.ok (), ms.map (Event.defineMethod rclass)) := by
  revert h
  induction ms with
  | nil => intro h; simp [bindMethods]
  | cons m rest ih =>
      intro h
      have hm := h m (by simp)
      have hrest := ih (fun x hx => h x (by simp [hx]))
      simp [bindMethods, hm, hrest]

/-- When every accumulated binding succeeds, the tail of the class define
operation succeeds and its trace is the binding events followed by the
instance-type tagging when the builder was marked foreign-backed. -/
theorem finish_all_ok (mrb : MrbState) (b : Class.Builder) (rclass : RawPtr)
    (h : ∀ m ∈ b.methods, mrb.method_define_ok rclass m = true) :
    Class.Builder.finish mrb b rclass
      = (Except.ok (), b.methods.map (Event.defineMethod rclass)
          ++ if b.is_mrb_tt_data then [Event.setInstanceTT rclass] else []) := by
  rw [Class.Builder.finish, bindMethods_all_ok mrb rclass b.methods h]
  split <;> simp_all
  split <;> simp

/-- The method-set key equality holds exactly when visibility kind and name
both agree. -/
theorem MethodSpec.keyEq_iff (a b : MethodSpec) :
    MethodSpec.keyEq a b = true ↔ a.method_type = b.method_type ∧ a.name = b.name := by
  simp [MethodSpec.keyEq]

/-- Inserting into the method set preserves the invariant that at most one
element matches any given (kind, name) key. -/
theorem hashSetInsert_countP_le (s : List MethodSpec) (mnew m : MethodSpec)
    (h : s.countP (fun x => MethodSpec.keyEq x m) ≤ 1) :
    (hashSetInsert s mnew).countP (fun x => MethodSpec.keyEq x m) ≤ 1 := by
  unfold hashSetInsert
  split
  · exact h
  · rename_i hany
    rw [List.countP_append, List.countP_cons, List.countP_nil]
    by_cases hk : MethodSpec.keyEq mnew m = true
    · have hzero : s.countP (fun x => MethodSpec.keyEq x m) = 0 := by
        rw [List.countP_eq_zero]
        intro x hx hxm
        have hxnew : MethodSpec.keyEq x mnew = true := by
          rw [MethodSpec.keyEq_iff] at hxm hk ⊢
          exact ⟨hxm.1.trans hk.1.symm, hxm.2.trans hk.2.symm⟩
        exact hany (List.any_eq_true.mpr ⟨x, hx, hxnew⟩)
      simp [hzero, hk]
    · simp only [hk]
      simpa using h

/-- Folding method-set insertions from any set with at most one match per
key yields a set with at most one match per key. -/
theorem foldl_hashSetInsert_countP (adds : List MethodSpec) (m : MethodSpec) :
    ∀ s, s.countP (fun x => MethodSpec.keyEq x m) ≤ 1 →
      (adds.foldl hashSetInsert s).countP (fun x => MethodSpec.keyEq x m) ≤ 1 := by
  induction adds with
  | nil => intro s h; simpa using h
  | cons a rest ih =>
      intro s h
      simp only [List.foldl_cons]
      exact ih _ (hashSetInsert_countP_le s a m h)

/-- C1: for a Spec with an enclosing scope, resolution first resolves the
scope; if the scope does not resolve, resolution returns none immediately
and the instrumented trace is exactly the scope resolution's own trace, so
no child defined-check and no child fetch is performed.  For a Spec with no
enclosing scope whose name is not defined at the root, resolution returns
none.  Absence is always the none outcome of the Option-returning
resolver, never an error value, and a returned handle is never null. -/
theorem claim_C1_resolve_scope_short_circuit (mrb : MrbState) (name : String) (sym : Nat)
    (scope : EnclosingRubyScope) :
    (EnclosingRubyScope.rclass mrb scope = none →
      ClassRclass.resolve mrb (ClassRclass.mk name (some scope)) = none
      ∧ (ClassRclass.resolveT mrb (ClassRclass.mk name (some scope))).2
          = (EnclosingRubyScope.rclassT mrb scope).2
      ∧ ModuleRclass.resolve mrb (ModuleRclass.mk sym name (some scope)) = none
      ∧ (ModuleRclass.resolveT mrb (ModuleRclass.mk sym name (some scope))).2
          = (EnclosingRubyScope.rclassT mrb scope).2)
    ∧ (mrb.class_defined name = false →
        ClassRclass.resolve mrb (ClassRclass.mk name none) = none)
    ∧ (mrb.const_defined_at mrb.object_class sym = false →
        ModuleRclass.resolve mrb (ModuleRclass.mk sym name none) = none)
    ∧ (∀ p, ClassRclass.resolve mrb (ClassRclass.mk name (some scope)) = some p → p ≠ 0)
    ∧ (∀ p, ModuleRclass.resolve mrb (ModuleRclass.mk sym name (some scope)) = some p → p ≠ 0) := by
  refine ⟨?_, ?_, ?_, ?_, ?_⟩
  · intro h
    have h1 : (EnclosingRubyScope.rclassT mrb scope).1 = none := by
      rw [EnclosingRubyScope.rclassT_fst]
      exact h
    rcases he : EnclosingRubyScope.rclassT mrb scope with ⟨r, qs⟩
    rw [he] at h1
    simp only at h1
    subst h1
    refine ⟨?_, ?_, ?_, ?_⟩
    · simp [ClassRclass.resolve, h]
    · simp [ClassRclass.resolveT, he]
    · simp [ModuleRclass.resolve, h]
    · simp [ModuleRclass.resolveT, he]
  · intro h
    simp [ClassRclass.resolve, h]
  · intro h
    simp [ModuleRclass.resolve, h]
  · intro p hp
    rw [ClassRclass.resolve] at hp
    rcases hs : EnclosingRubyScope.rclass mrb scope with _ | s
    · rw [hs] at hp
      simp at hp
    · rw [hs] at hp
      simp only at hp
      split at hp
      · exact nonNull_eq_some hp
      · simp at hp
  · intro p hp
    rw [ModuleRclass.resolve] at hp
    rcases hs : EnclosingRubyScope.rclass mrb scope with _ | s
    · rw [hs] at hp
      simp at hp
    · rw [hs] at hp
      simp only at hp
      split at hp
      · exact nonNull_eq_some hp
      · simp at hp

/-- Witness for C1 at concrete inputs: under the all-undefined oracle the
scope Baz does not resolve, so a class Bar and a module Bar scoped under it
resolve to none with the failed-scope trace, and the root lookups for an
undefined name are none; under the all-defined oracle the nested class Bar
resolves to the non-null handle 4. -/
theorem claim_C1_resolve_scope_short_circuit_witness :
    ClassRclass.resolve oracleUndef (ClassRclass.mk "Bar" (some scopeBaz)) = none
    ∧ (ClassRclass.resolveT oracleUndef (ClassRclass.mk "Bar" (some scopeBaz))).2
        = (EnclosingRubyScope.rclassT oracleUndef scopeBaz).2
    ∧ ModuleRclass.resolve oracleUndef (ModuleRclass.mk 5 "Bar" (some scopeBaz)) = none
    ∧ ClassRclass.resolve oracleUndef (ClassRclass.mk "Bar" none) = none
    ∧ ModuleRclass.resolve oracleUndef (ModuleRclass.mk 5 "Bar" none) = none
    ∧ (4 : RawPtr) ≠ 0 := by
  have h := claim_C1_resolve_scope_short_circuit oracleUndef "Bar" 5 scopeBaz
  have hd := claim_C1_resolve_scope_short_circuit oracleDef "Bar" 5 scopeBaz
  have hscope : EnclosingRubyScope.rclass oracleUndef scopeBaz = none := by rfl
  exact ⟨(h.1 hscope).1, (h.1 hscope).2.1, (h.1 hscope).2.2.1, h.2.1 (by rfl),
    h.2.2.1 (by rfl), hd.2.2.2.1 4 (by rfl)⟩

/-- C2: when the builder's Spec already resolves to a class handle, define
succeeds without issuing any define-class call: the trace is exactly one
binding event per accumulated method onto the resolved handle, followed
only by the optional instance-type tagging; in particular every
accumulated method is bound onto that single class.  Since this holds
whenever the Spec resolves, a second define for the same qualified name
succeeds again against the same single class object. -/
theorem claim_C2_define_reuses_resolved_class (mrb : MrbState) (b : Class.Builder)
    (rclass : RawPtr)
    (hresolve : ClassRclass.resolve mrb b.spec.rclass = some rclass)
    (hsuper : b.super_class = none → mrb.object_class ≠ 0)
    (hbind : ∀ m ∈ b.methods, mrb.method_define_ok rclass m = true) :
    Class.Builder.define mrb b
      = (Except.ok (),
          b.methods.map (Event.defineMethod rclass)
            ++ if b.is_mrb_tt_data then [Event.setInstanceTT rclass] else [])
    ∧ ∀ m ∈ b.methods, Event.defineMethod rclass m ∈ (Class.Builder.define mrb b).2 := by
  have hdef : Class.Builder.define mrb b
      = (Except.ok (),
          b.methods.map (Event.defineMethod rclass)
            ++ if b.is_mrb_tt_data then [Event.setInstanceTT rclass] else []) := by
    rcases hsc : b.super_class with _ | sc
    · rw [Class.Builder.define]
      rw [hsc]
      simp only
      rw [nonNull_of_ne (hsuper hsc)]
      simp only
      rw [hresolve]
      exact finish_all_ok mrb b rclass hbind
    · rw [Class.Builder.define]
      rw [hsc]
      simp only
      rw [hresolve]
      exact finish_all_ok mrb b rclass hbind
  refine ⟨hdef, ?_⟩
  intro m hm
  rw [hdef]
  simp only [List.mem_append, List.mem_map]
  exact Or.inl ⟨m, hm, rfl⟩

/-- Witness for C2 at concrete inputs: under the all-defined oracle the
builder for the root class Foo (already resolving to handle 3, marked
foreign-backed, with one accumulated method) defines successfully, binding
its method onto handle 3 and tagging it, with no class-creation event. -/
theorem claim_C2_define_reuses_resolved_class_witness :
    Class.Builder.define oracleDef builderFoo
      = (Except.ok (), [Event.defineMethod 3 m7a, Event.setInstanceTT 3])
    ∧ Event.defineMethod 3 m7a ∈ (Class.Builder.define oracleDef builderFoo).2 := by
  have h := claim_C2_define_reuses_resolved_class oracleDef builderFoo 3 (by rfl)
    (fun _ => by simp [oracleDef, oracleUndef]) (fun m _ => rfl)
  exact ⟨h.1.trans (by rfl), h.2 m7a (by simp [builderFoo])⟩

/-- C3: for a builder whose Spec has an enclosing scope, when the scope
does not resolve (and hence the Spec itself does not resolve), define fails
with NotDefinedError naming the missing enclosing scope by its
fully-qualified name, and the empty trace shows no VM define-under call was
made; this holds for the class and the module builder alike. -/
theorem claim_C3_define_missing_enclosing_scope (mrb : MrbState) (bc : Class.Builder)
    (bm : Module.Builder) (scopeC scopeM : EnclosingRubyScope)
    (hC : bc.spec.enclosing_scope = some scopeC)
    (hM : bm.spec.enclosing_scope = some scopeM)
    (hscopeC : EnclosingRubyScope.rclass mrb scopeC = none)
    (hscopeM : EnclosingRubyScope.rclass mrb scopeM = none)
    (hsuper : bc.super_class = none → mrb.object_class ≠ 0) :
    Class.Builder.define mrb bc
      = (Except.error (NotDefinedError.enclosingScope scopeC.fqname), [])
    ∧ Module.Builder.define mrb bm
      = (Except.error (NotDefinedError.enclosingScope scopeM.fqname), []) := by
  have hresC : ClassRclass.resolve mrb bc.spec.rclass = none := by
    rw [Class.Spec.rclass, hC, ClassRclass.resolve, hscopeC]
  have hresM : ModuleRclass.resolve mrb bm.spec.rclass = none := by
    rw [Module.Spec.rclass, hM, ModuleRclass.resolve, hscopeM]
  constructor
  · rcases hsc : bc.super_class with _ | sc
    · rw [Class.Builder.define, hsc]
      simp only
      rw [nonNull_of_ne (hsuper hsc)]
      simp only
      rw [hresC]
      simp only
      rw [hC]
      simp only
      rw [hscopeC]
    · rw [Class.Builder.define, hsc]
      simp only
      rw [hresC]
      simp only
      rw [hC]
      simp only
      rw [hscopeC]
  · rw [Module.Builder.define, hresM]
    simp only
    rw [hM]
    simp only
    rw [hscopeM]

/-- Witness for C3 at concrete inputs: under the all-undefined oracle,
defining the class Bar and the module Bar scoped under the undefined scope
Baz fails with NotDefinedError naming Baz, with an empty trace. -/
theorem claim_C3_define_missing_enclosing_scope_witness :
    Class.Builder.define oracleUndef (Class.Builder.for_spec barSpec)
      = (Except.error (NotDefinedError.enclosingScope "Baz"), [])
    ∧ Module.Builder.define oracleUndef (Module.Builder.for_spec barModSpec)
      = (Except.error (NotDefinedError.enclosingScope "Baz"), []) := by
  have h := claim_C3_define_missing_enclosing_scope oracleUndef
    (Class.Builder.for_spec barSpec) (Module.Builder.for_spec barModSpec)
    scopeBaz scopeBaz rfl rfl (by rfl) (by rfl)
    (fun _ => by simp [oracleUndef])
  exact ⟨h.1.trans (by rfl), h.2.trans (by rfl)⟩

/-- C4: the funcall argument-count cap is 16; a call with more than 16
arguments returns the argument-count error carrying the given count and
the maximum, with an empty trace, so no VM call is attempted; with 16 or
fewer arguments the count check produces no error and the protected VM
call is issued. -/
theorem claim_C4_funcall_argument_cap (mrb : MrbState) (self : Value) (func : String)
    (args : List Value) (block : Option Value) :
    MRB_FUNCALL_ARGC_MAX = 16
    ∧ (args.length > MRB_FUNCALL_ARGC_MAX →
        Value.funcall mrb self func args block
          = (Except.error (Exception.argCount
              { given := args.length, max := MRB_FUNCALL_ARGC_MAX }), []))
    ∧ (args.length ≤ MRB_FUNCALL_ARGC_MAX →
        ArgCountError.tryFrom args = Except.error ()
        ∧ (Value.funcall mrb self func args block).2
            = [Event.vmFuncall self.inner (mrb.intern_string func) (args.map Value.inner)]) := by
  refine ⟨rfl, ?_, ?_⟩
  · intro h
    simp [Value.funcall, ArgCountError.tryFrom, h]
  · intro h
    have hno : ¬ args.length > MRB_FUNCALL_ARGC_MAX := by omega
    refine ⟨by simp [ArgCountError.tryFrom, hno], ?_⟩
    rw [Value.funcall]
    simp only [ArgCountError.tryFrom, hno, if_false]
    rcases hp : mrb.protect_funcall self.inner (mrb.intern_string func) (args.map Value.inner)
        (block.map Value.inner) with exc | v
    · rfl
    · simp only
      split <;> rfl

/-- Witness for C4 at concrete inputs: a 17-argument call under the
all-undefined oracle fails with the argument-count error carrying 17 and
16 before any VM call, while a 0-argument call passes the check and issues
the protected VM call. -/
theorem claim_C4_funcall_argument_cap_witness :
    Value.funcall oracleUndef sampleVal "bar" (List.replicate 17 sampleVal) none
      = (Except.error (Exception.argCount { given := 17, max := 16 }), [])
    ∧ ArgCountError.tryFrom ([] : List Value) = Except.error ()
    ∧ (Value.funcall oracleUndef sampleVal "bar" [] none).2
        = [Event.vmFuncall sampleVal.inner 5 []] := by
  have h17 := claim_C4_funcall_argument_cap oracleUndef sampleVal "bar"
    (List.replicate 17 sampleVal) none
  have h0 := claim_C4_funcall_argument_cap oracleUndef sampleVal "bar" [] none
  refine ⟨(h17.2.1 (by simp [MRB_FUNCALL_ARGC_MAX])).trans (by rfl), ?_, ?_⟩
  · exact (h0.2.2 (by simp [MRB_FUNCALL_ARGC_MAX])).1
  · exact ((h0.2.2 (by simp [MRB_FUNCALL_ARGC_MAX])).2).trans (by rfl)

/-- C5: for class Specs and for module Specs alike, Spec equality holds
exactly when the fully-qualified names are equal; in particular two class
Specs agreeing on name and scope are equal whatever their data-type
records (free functions) are. -/
theorem claim_C5_spec_equality_is_fqname (c1 c2 : Class.Spec) (m1 m2 : Module.Spec)
    (d1 d2 : MrbDataType) (name : String) (scope : Option EnclosingRubyScope) :
    (Class.Spec.eq c1 c2 = true ↔ c1.fqname = c2.fqname)
    ∧ (Module.Spec.eq m1 m2 = true ↔ m1.fqname = m2.fqname)
    ∧ Class.Spec.eq { name := name, data_type := d1, enclosing_scope := scope }
        { name := name, data_type := d2, enclosing_scope := scope } = true := by
  refine ⟨?_, ?_, ?_⟩
  · simp [Class.Spec.eq]
  · simp [Module.Spec.eq]
  · simp only [Class.Spec.eq]
    exact beq_self_eq_true ..


/-- C8: when the protected VM call inside funcall succeeds but the result
carries the interpreter-internal unreachable type tag, funcall converts it
to the fatal internal error and never returns the value; a successful
non-unreachable result is returned as an ordinary value. -/
theorem claim_C8_funcall_unreachable_guard (mrb : MrbState) (self : Value) (func : String)
    (args : List Value) (block : Option Value) (v : MrbValue)
    (hlen : args.length ≤ MRB_FUNCALL_ARGC_MAX)
    (hcall : mrb.protect_funcall self.inner (mrb.intern_string func) (args.map Value.inner)
        (block.map Value.inner) = Except.ok v) :
    (v.ruby_type = Ruby.unreachable →
      (Value.funcall mrb self func args block).1
        = Except.error (Exception.fatal "Unreachable Ruby value"))
    ∧ (v.ruby_type ≠ Ruby.unreachable →
        (Value.funcall mrb self func args block).1 = Except.ok (Value.mk v)) := by
  have hno : ¬ args.length > MRB_FUNCALL_ARGC_MAX := by omega
  rw [Value.funcall]
  simp only [ArgCountError.tryFrom, hno, if_false]
  rw [hcall]
  simp only
  constructor
  · intro h
    simp [Value.is_unreachable, Value.ruby_type, h]
  · intro h
    have : (Value.mk v).is_unreachable = false := by
      rw [Value.is_unreachable]
      cases hv : (Value.mk v).ruby_type <;> simp_all [Value.ruby_type]
    simp [this]

/-- Witness for C8 at concrete inputs: under the oracle whose protected
call returns an unreachable-tagged value, a 0-argument funcall yields the
fatal internal error; under the all-undefined oracle the same call returns
the nil result as an ordinary value. -/
theorem claim_C8_funcall_unreachable_guard_witness :
    (Value.funcall oracleUnreach sampleVal "bar" [] none).1
      = Except.error (Exception.fatal "Unreachable Ruby value")
    ∧ (Value.funcall oracleUndef sampleVal "bar" [] none).1
        = Except.ok (Value.mk { ruby_type := Ruby.nil, basic_ptr := 0 }) := by
  have h1 := claim_C8_funcall_unreachable_guard oracleUnreach sampleVal "bar" [] none
    { ruby_type := Ruby.unreachable, basic_ptr := 0 }
    (by simp [MRB_FUNCALL_ARGC_MAX]) (by rfl)
  have h2 := claim_C8_funcall_unreachable_guard oracleUndef sampleVal "bar" [] none
    { ruby_type := Ruby.nil, basic_ptr := 0 }
    (by simp [MRB_FUNCALL_ARGC_MAX]) (by rfl)
  exact ⟨h1.1 rfl, h2.2 (by simp)⟩

/-- C10: equality on the host-side Value wrapper compares the underlying
basic object pointers and nothing else: two Values are equal exactly when
mrb_sys_basic_ptr yields the same pointer for both, so values wrapping
distinct VM objects compare unequal regardless of any Ruby-level notion of
equality. -/
theorem claim_C10_value_eq_is_pointer_identity (v1 v2 : Value) :
    Value.eq v1 v2 = true ↔ v1.inner.basic_ptr = v2.inner.basic_ptr := by
  simp [Value.eq]

/-- C6: with the interpreter state present, new_instance yields Ok(None)
exactly when the host type has no registered Spec, or the registered
Spec's handle does not resolve, or the argument count does not fit the
VM's integer width; otherwise it returns the freshly allocated and
initialized instance produced by mrb_obj_new on the resolved class with
the marshalled arguments. -/
theorem claim_C6_new_instance_none_cases (interp : Artichoke) (st : State) (tid : Nat)
    (args : List Value) (hstate : interp.state = some st) :
    (interp.new_instance tid args = Except.ok none ↔
      (Registry.get st.classes tid = none
        ∨ (∃ spec, Registry.get st.classes tid = some spec
            ∧ ClassRclass.resolve interp.mrb spec.rclass = none)
        ∨ args.length > INT_MAX))
    ∧ (∀ spec rclass, Registry.get st.classes tid = some spec →
        ClassRclass.resolve interp.mrb spec.rclass = some rclass →
        args.length ≤ INT_MAX →
        interp.new_instance tid args
          = Except.ok (some (Value.mk
              (interp.mrb.obj_new rclass args.length (args.map Value.inner))))) := by
  constructor
  · rcases hget : Registry.get st.classes tid with _ | spec
    · simp [Artichoke.new_instance, hstate, hget]
    · by_cases hlen : args.length > INT_MAX
      · simp [Artichoke.new_instance, hstate, hget, hlen]
      · rcases hres : ClassRclass.resolve interp.mrb spec.rclass with _ | rc
        · simp [Artichoke.new_instance, hstate, hget, hlen, hres]
        · simp [Artichoke.new_instance, hstate, hget, hlen, hres]
  · intro spec rclass hget hres hlen
    have hno : ¬ args.length > INT_MAX := by omega
    simp [Artichoke.new_instance, hstate, hget, hno, hres]

/-- Witness for C6 at concrete inputs: with an empty registry new_instance
yields Ok(None); with the Foo Spec registered under type id 0 and the
all-defined oracle, new_instance returns the instance produced by
mrb_obj_new (the object-tagged value with basic pointer 7). -/
theorem claim_C6_new_instance_none_cases_witness :
    Artichoke.new_instance { state := some { classes := [] }, mrb := oracleUndef } 0 []
      = Except.ok none
    ∧ Artichoke.new_instance { state := some { classes := [(0, fooSpec)] }, mrb := oracleDef } 0 []
        = Except.ok (some (Value.mk { ruby_type := Ruby.object, basic_ptr := 7 })) := by
  have h1 := claim_C6_new_instance_none_cases
    { state := some { classes := [] }, mrb := oracleUndef } { classes := [] } 0 [] rfl
  have h2 := claim_C6_new_instance_none_cases
    { state := some { classes := [(0, fooSpec)] }, mrb := oracleDef }
    { classes := [(0, fooSpec)] } 0 [] rfl
  refine ⟨h1.1.mpr (Or.inl rfl), ?_⟩
  exact (h2.2 fooSpec 3 rfl (by rfl) (Nat.zero_le _)).trans (by rfl)

/-- C7, counterexample: adding a method with the same kind and name as one
already added does NOT keep the later-added function pointer.  Adding bar
with function pointer 1 and then bar with function pointer 2 leaves the
accumulated set holding exactly the first spec (pointer 1): Rust's
HashSet::insert retains the existing element on duplicates. -/
theorem claim_C7_duplicate_keeps_first_counterexample :
    (((Class.Builder.for_spec fooSpec).add_method "bar" 1 0).bind
        (fun b => b.add_method "bar" 2 0)).map Class.Builder.methods
      = Except.ok [m7a]
    ∧ m7a.method = 1 ∧ m7b.method = 2 ∧ m7a ≠ m7b := by
  refine ⟨by rfl, rfl, rfl, by decide⟩

/-- C7 as amended: the builders' method sets are deduplicated by
(kind, name) — after a duplicate add the set contains exactly one entry
for that key — but a duplicate insert leaves the set unchanged, so it is
the FIRST-added function pointer, not the later one, that remains and
gets bound at define time. -/
theorem claim_C7_method_set_dedup_first_wins (s : List MethodSpec) (m : MethodSpec)
    (adds : List MethodSpec) :
    (s.any (fun x => MethodSpec.keyEq x m) = true → hashSetInsert s m = s)
    ∧ (s.any (fun x => MethodSpec.keyEq x m) = false → hashSetInsert s m = s ++ [m])
    ∧ (adds.foldl hashSetInsert []).countP (fun x => MethodSpec.keyEq x m) ≤ 1 := by
  refine ⟨?_, ?_, ?_⟩
  · intro h
    simp [hashSetInsert, h]
  · intro h
    simp [hashSetInsert, h]
  · exact foldl_hashSetInsert_countP adds m [] (by simp)

/-- Witness for the amended C7 at concrete inputs: inserting the key-equal
m7b into the set holding m7a leaves the set unchanged; inserting m7a into
the empty set appends it; and folding both adds from the empty set leaves
at most one entry matching their shared key. -/
theorem claim_C7_method_set_dedup_first_wins_witness :
    hashSetInsert [m7a] m7b = [m7a]
    ∧ hashSetInsert [] m7a = [m7a]
    ∧ ([m7a, m7b].foldl hashSetInsert []).countP (fun x => MethodSpec.keyEq x m7b) ≤ 1 := by
  have h := claim_C7_method_set_dedup_first_wins [m7a] m7b [m7a, m7b]
  have h2 := claim_C7_method_set_dedup_first_wins [] m7a [m7a, m7b]
  exact ⟨h.1 (by decide), (h2.2.1 (by decide)).trans (by rfl), h.2.2⟩

/-- C9: registration is last-writer-wins and never errors on duplicates.
With the state present, def_class succeeds and replaces the state's class
table by the overwriting insertion; after registering s1 then s2 for the
same host type, class_spec returns s2; an insertion leaves exactly one
entry for the inserted host type, and it preserves at-most-one-entry-per-
type for every host type, so the registry holds at most one Spec per host
type at all times. -/
theorem claim_C9_registry_overwrites (interp : Artichoke) (st : State) (tid : Nat)
    (s1 s2 : Class.Spec) (hstate : interp.state = some st) :
    interp.def_class tid s1
      = Except.ok { interp with
          state := some { st with classes := Registry.insert st.classes tid s1 } }
    ∧ Artichoke.class_spec
        { interp with state := some { st with
            classes := Registry.insert (Registry.insert st.classes tid s1) tid s2 } } tid
      = Except.ok (some s2)
    ∧ (∀ (r : List (Nat × Class.Spec)) (spec : Class.Spec),
        (Registry.insert r tid spec).countP (fun p => p.1 == tid) = 1)
    ∧ (∀ (r : List (Nat × Class.Spec)) (spec : Class.Spec) (t : Nat),
        r.countP (fun p => p.1 == t) ≤ 1 →
        (Registry.insert r tid spec).countP (fun p => p.1 == t) ≤ 1) := by
  have hone : ∀ (r : List (Nat × Class.Spec)) (spec : Class.Spec),
      (Registry.insert r tid spec).countP (fun p => p.1 == tid) = 1 := by
    intro r spec
    rw [Registry.insert, List.countP_cons]
    have hzero : (r.filter (fun p => p.1 != tid)).countP (fun p => p.1 == tid) = 0 := by
      rw [List.countP_eq_zero]
      intro x hx
      have := (List.mem_filter.mp hx).2
      simpa using this
    simp [hzero]
  refine ⟨?_, ?_, hone, ?_⟩
  · simp [Artichoke.def_class, hstate]
  · simp [Artichoke.class_spec, Registry.get, Registry.insert, List.find?_cons]
  · intro r spec t h
    by_cases ht : t = tid
    · subst ht
      rw [hone r spec]
    · rw [Registry.insert, List.countP_cons]
      have hhead : ((tid, spec).1 == t) = false := by
        simp [Ne.symm ht]
      simp only [hhead, Bool.false_eq_true, if_false, Nat.add_zero]
      have hle : (r.filter (fun p => p.1 != tid)).countP (fun p => p.1 == t)
          ≤ r.countP (fun p => p.1 == t) :=
        List.Sublist.countP_le _ (List.filter_sublist r)
      omega

/-- Witness for C9 at concrete inputs: registering Foo for type id 0 in an
empty registry succeeds with the one-entry table; after overwriting with
the Bar Spec, class_spec returns Bar; the insertion leaves exactly one
entry for type id 0 and keeps every per-type count at most one. -/
theorem claim_C9_registry_overwrites_witness :
    Artichoke.def_class { state := some { classes := [] }, mrb := oracleUndef } 0 fooSpec
      = Except.ok { state := some { classes := [(0, fooSpec)] }, mrb := oracleUndef }
    ∧ Artichoke.class_spec { state := some { classes := [(0, barSpec)] }, mrb := oracleUndef } 0
        = Except.ok (some barSpec)
    ∧ (Registry.insert [] 0 fooSpec).countP (fun p => p.1 == 0) = 1
    ∧ (Registry.insert [] 0 fooSpec).countP (fun p => p.1 == 0) ≤ 1 := by
  have h := claim_C9_registry_overwrites
    { state := some { classes := [] }, mrb := oracleUndef } { classes := [] } 0 fooSpec barSpec rfl
  refine ⟨h.1.trans (by rfl), ?_, h.2.2.1 [] fooSpec, h.2.2.2 [] fooSpec 0 (by simp)⟩
  exact h.2.1.trans (by rfl)
